import Mathlib

/-!
Verification of the `IntrinsicHDR` inference pipeline (`inference.py`).

The pipeline is numerical glue around pretrained neural networks: images are
dense floating-point arrays, the networks (decomposition, shading/albedo
hallucination, refinement), the colour conversion `rgb_to_lab`, the quantile
helper `get_quantile` and the interpolation kernel of `cv2.resize` are
external black boxes.  We embed the orchestration code shallowly:

* an image/tensor is a triple of dimensions together with a pixel function
  (height index, width index, channel index) -> rational value; exact
  rationals stand in for IEEE floats, and layout-only tensor operations
  (`permute`, `unsqueeze`, `squeeze`, `.cpu().numpy()`) are identities in
  this model since the pixel function abstracts the memory layout;
* the neural networks, `rgb_to_lab`'s L channel, `get_quantile` and the
  intrinsic decomposition `decompose_torch` are universally quantified
  function parameters;
* fallible steps return `Except Err`; in particular the misspelled tensor
  method `.sqeeze()` on line 239 of `inference.py` raises `AttributeError`
  at run time and is embedded as the error it raises.
-/

namespace IntrinsicHDR

/-- An image / tensor: `h × w` pixels with `c` channels, rational-valued.
Layout (HWC vs BCHW) is abstracted by the indexing function, so the
`permute`/`unsqueeze`/`squeeze` layout operations of the source are
identities in this model. -/
structure Img where
  h : ℕ
  w : ℕ
  c : ℕ
  pix : ℕ → ℕ → ℕ → ℚ

/-- Pointwise (elementwise) map over an image, keeping its shape.  All the
elementwise numpy / torch arithmetic of `inference.py` factors through it. -/
def pmap (f : ℚ → ℚ) (x : Img) : Img :=
  ⟨x.h, x.w, x.c, fun i j ch => f (x.pix i j ch)⟩

/-- Multiplication by a scalar (`img * s`). -/
def smul (s : ℚ) (x : Img) : Img := pmap (fun v => s * v) x

/-- Embedding of `np.clip(x, 0, 1)` (line 195): clamp every value into
`[0, 1]`. -/
def clip01 (x : Img) : Img := pmap (fun v => min (max v 0) 1) x

/-- Embedding of `torch.clamp(x, 0, 1)` (lines 215, 141, 147, 157): the same
pointwise function as `np.clip(x, 0, 1)`. -/
def clamp01 (x : Img) : Img := pmap (fun v => min (max v 0) 1) x

/-- Embedding of `cv2.resize(x, (w, h))`: the result has the requested
dimensions and the same channel count; the interpolation kernel is external
library behaviour, modelled as nearest-neighbour sampling. -/
def resize (x : Img) (w h : ℕ) : Img :=
  ⟨h, w, x.c, fun i j ch => x.pix (i * x.h / h) (j * x.w / w) ch⟩

/-- Embedding of `torch.cat([a, b], dim=1)`: concatenation along the channel
dimension.  Three- and four-argument `torch.cat` are iterated `cat2`. -/
def cat2 (a b : Img) : Img :=
  ⟨a.h, a.w, a.c + b.c, fun i j ch => if ch < a.c then a.pix i j ch else b.pix i j (ch - a.c)⟩

/-- Embedding of `torch.max(x, dim=1, keepdims=True)[0]` (line 127): the
per-pixel maximum over the channel dimension, leaving one channel. -/
def chanMax (x : Img) : Img :=
  ⟨x.h, x.w, 1, fun i j _ => (List.range x.c).foldl (fun m ch => max m (x.pix i j ch)) (x.pix i j 0)⟩

/-- Elementwise product with torch broadcasting over the channel dimension
(a `(b,1,h,w)` factor broadcasts against a `(b,3,h,w)` one), as in
`albedo_hdr * shading_hdr` on line 155. -/
def bmul (x y : Img) : Img :=
  ⟨x.h, x.w, max x.c y.c, fun i j ch =>
    x.pix i j (if x.c = 1 then 0 else ch) * y.pix i j (if y.c = 1 then 0 else ch)⟩

/-! ## blend_imgs (inference.py lines 22-52)

`rgb_to_lab` is an out-of-scope colour conversion (spec section 1); only its
L channel at each pixel is used, so it enters as a function parameter
`labL : ℚ × ℚ × ℚ → ℚ` applied to the three channels of a pixel. -/

/-- The Lab L-channel of an image under the black-box conversion `labL`:
embedding of `rgb_to_lab(x, normalize=False, mode='numpy')[:, :, 0]`. -/
def labChan (labL : ℚ × ℚ × ℚ → ℚ) (x : Img) : ℕ → ℕ → ℚ :=
  fun i j => labL (x.pix i j 0, x.pix i j 1, x.pix i j 2)

/-- Sum of `f` over the pixels selected by the boolean mask `mask >= 0`
(numpy boolean indexing `arr[mask >= 0]`, lines 40-41), over an `h × w`
grid. -/
def maskedSum (mask : Img) (h w : ℕ) (f : ℕ → ℕ → ℚ) : ℚ :=
  ∑ i ∈ Finset.range h, ∑ j ∈ Finset.range w,
    if 0 ≤ mask.pix i j 0 then f i j else 0

/-- Embedding of line 44: `np.linalg.lstsq(l_ldr.reshape(-1,1),
l_hdr.reshape(-1,1), rcond=None)[0]`.  For a single-column system the
minimum-norm least-squares solution is `(aᵀb)/(aᵀa)` when `aᵀa ≠ 0` and `0`
otherwise. -/
def blendScale (labL : ℚ × ℚ × ℚ → ℚ) (ldr hdr mask : Img) : ℚ :=
  let a := labChan labL ldr
  let b := labChan labL hdr
  let ata := maskedSum mask ldr.h ldr.w (fun i j => a i j * a i j)
  let atb := maskedSum mask ldr.h ldr.w (fun i j => a i j * b i j)
  if ata = 0 then 0 else atb / ata

/-- Embedding of `blend_imgs(ldr, hdr, mask)` (lines 22-52): fit a scalar
`scale` mapping the LDR L-channel to the HDR L-channel over the pixels with
`mask >= 0`, then return `mask * hdr + (1 - mask) * (ldr * scale)`
(the mask is 2-d and broadcast over the channel dimension, line 50). -/
def blend_imgs (labL : ℚ × ℚ × ℚ → ℚ) (ldr hdr mask : Img) : Img :=
  let scale := blendScale labL ldr hdr mask
  ⟨hdr.h, hdr.w, hdr.c, fun i j ch =>
    mask.pix i j 0 * hdr.pix i j ch + (1 - mask.pix i j 0) * (ldr.pix i j ch * scale)⟩

/-! ## hdr_reconstruction (inference.py lines 111-171)

The three pretrained networks are black boxes (spec section 1) and enter as
function parameters, as does `get_quantile` from the out-of-scope
`src.decomposition_utils`. -/

/-- The three reconstruction networks `(sh_model, alb_model, ref_model)`
returned by `load_reconstruction_models`, as black-box forward functions. -/
structure Nets where
  sh_fwd : Img → Img
  alb_fwd : Img → Img
  ref_fwd : Img → Img

/-- The LDR part `torch.clamp(ldr_t*proc_scale, 0, 1)` concatenated into
each reconstruction-network input (lines 141, 147, 157). -/
def reconLdrPart (ldr_t : Img) (proc_scale : ℚ) : Img :=
  clamp01 (smul proc_scale ldr_t)

/-- The saturation guide mask of line 127:
`torch.max(torch.clamp(ldr_t-0.8,0,1)/0.2, dim=1, keepdims=True)[0]`. -/
def guideMask (ldr_t : Img) : Img :=
  chanMax (pmap (fun v => min (max (v - 0.8) 0) 1 / 0.2) ldr_t)

/-- Return value of `hdr_reconstruction` (line 171): the tuple
`rgb_hdr, albedo_hdr, inv_sh_hdr, albedo, inv_shading, mask`, with fields
named after the source variables. -/
structure RecOut where
  rgb_hdr : Img
  albedo_hdr : Img
  inv_sh_hdr : Img
  albedo : Img
  inv_shading : Img
  mask : Img

/-- Embedding of `hdr_reconstruction(reconstruction_networks, albedo_raw,
inv_shading_raw, ldr_t, proc_scale)` (lines 111-171).  `quant a q` stands
for the black-box `get_quantile(a, q)`; the trailing layout conversions
`.squeeze().permute(1,2,0).cpu().numpy()` are identities in this model. -/
def hdr_reconstruction (nets : Nets) (quant : Img → ℚ → ℚ)
    (albedo_raw inv_shading_raw ldr_t : Img) (proc_scale : ℚ) : RecOut :=
  let mask := guideMask ldr_t
  let alb_scale := 0.95 / quant albedo_raw 0.95
  let albedo := pmap (fun v => v * alb_scale) albedo_raw
  let sh := pmap (fun v => 1 / v - 1) inv_shading_raw
  let inv_shading := pmap (fun v => 1 / (v / alb_scale + 1)) sh
  let alb_input_t := cat2 (cat2 (reconLdrPart ldr_t proc_scale) albedo) mask
  let albedo_hdr := nets.alb_fwd alb_input_t
  let sh_input_t := cat2 (reconLdrPart ldr_t proc_scale) inv_shading
  let inv_sh_hdr := nets.sh_fwd sh_input_t
  let shading_hdr := pmap (fun v => 1 / v - 1) inv_sh_hdr
  let hdr_t := bmul albedo_hdr shading_hdr
  let inv_hdr_t := pmap (fun v => 1 / (v + 1)) hdr_t
  let input_t := cat2 (cat2 (cat2 (reconLdrPart ldr_t proc_scale) inv_hdr_t) albedo_hdr) inv_sh_hdr
  let ref_hdr := nets.ref_fwd input_t
  ⟨pmap (fun v => 1 / v - 1) ref_hdr, albedo_hdr, inv_sh_hdr, albedo, inv_shading, mask⟩

/-! ## intrinsic_hdr (inference.py lines 174-255) -/

/-- Modelled from the spec: `round_32` from
`intrinsic_decomposition.common.general` is not under `src/`; per the call
site comment (line 207, "resize to closest multiple of 32") it returns the
multiple of 32 closest to its argument. -/
def round_32 (q : ℚ) : ℕ := 32 * (round (q / 32)).toNat

/-- The secure-resize policy of lines 197-208: if `max(h_in, w_in)`
exceeds `max_res`, scale both dimensions by `max_res / max(h_in, w_in)`;
then round both processing dimensions to a multiple of 32.  Returns
`(new_h, new_w)`. -/
def procSize (hIn wIn maxRes : ℕ) : ℕ × ℕ :=
  if maxRes < max hIn wIn then
    let s : ℚ := (maxRes : ℚ) / (max hIn wIn : ℚ)
    (round_32 (hIn * s), round_32 (wIn * s))
  else
    (round_32 (hIn : ℚ), round_32 (wIn : ℚ))

/-- Run-time errors of the pipeline glue. -/
inductive Err where
  | attributeError
  | ioError
deriving DecidableEq

/-- Line 239/240 call `.sqeeze()` on a torch tensor; `sqeeze` is not a
tensor method (the intended `squeeze` is misspelled), so the call raises
`AttributeError`.  Embedded as the error it raises. -/
def sqeeze (_ : Img) : Except Err Img := .error .attributeError

/-- The correctly spelled `torch.Tensor.squeeze`: layout-only, hence the
identity in this model. -/
def squeeze (x : Img) : Img := x

/-- The results dictionary packed on lines 244-253. -/
structure Results where
  rgb_hdr : Img
  alb_hdr : Img
  sh_hdr : Img
  mask : Img
  alb_raw : Img
  sh_raw : Img
  alb_ldr : Img
  sh_ldr : Img

/-- The tensor passed to the decomposition call on line 215:
`torch.clamp(ldr_t, 0, 1)` where `ldr_t` is the clipped input, resized to
the processing resolution and scaled by `proc_scale`. -/
def decompInput (ldr : Img) (max_res : ℕ) (proc_scale : ℚ) : Img :=
  let ldr_c := clip01 ldr
  let nh := (procSize ldr_c.h ldr_c.w max_res).1
  let nw := (procSize ldr_c.h ldr_c.w max_res).2
  clamp01 (smul proc_scale (resize ldr_c nw nh))

/-- Embedding of `intrinsic_hdr(decomp_models, reconstruction_networks,
ldr_c, max_res, decomp_res, proc_scale)` (lines 174-255); the source
defaults are `max_res=4096`, `decomp_res=None`, `proc_scale=1.0`.
`decompose x r` stands for the black-box
`decompose_torch(decomp_models, x, r)`, returning the pair
`(pred_inv_shading_raw, pred_albedo_raw)`.  The two `.sqeeze()` calls of
lines 239-240 raise `AttributeError` before the results dictionary is
built. -/
def intrinsic_hdr (labL : ℚ × ℚ × ℚ → ℚ) (decompose : Img → Option ℕ → Img × Img)
    (nets : Nets) (quant : Img → ℚ → ℚ) (ldr : Img)
    (max_res : ℕ) (decomp_res : Option ℕ) (proc_scale : ℚ) : Except Err Results :=
  let ldr_c := clip01 ldr
  let h_in := ldr_c.h
  let w_in := ldr_c.w
  let new_h := (procSize h_in w_in max_res).1
  let new_w := (procSize h_in w_in max_res).2
  let ldr_lin := resize ldr_c new_w new_h
  let ldr_t := smul proc_scale ldr_lin
  let dec := decompose (clamp01 ldr_t) decomp_res
  let pred_inv_shading_raw := dec.1
  let pred_albedo_raw := dec.2
  let rec_results := hdr_reconstruction nets quant pred_albedo_raw pred_inv_shading_raw ldr_t proc_scale
  let hdr_r0 := resize rec_results.rgb_hdr w_in h_in
  let bl_mask := resize rec_results.mask w_in h_in
  let hdr_r := blend_imgs labL ldr_c hdr_r0 bl_mask
  let alb_hdr := resize rec_results.albedo_hdr w_in h_in
  let shading_hdr := resize (pmap (fun v => 1 / v - 1) rec_results.inv_sh_hdr) w_in h_in
  let alb_raw := resize pred_albedo_raw w_in h_in
  let sh_raw := resize (pmap (fun v => 1 / v - 1) pred_inv_shading_raw) w_in h_in
  (sqeeze rec_results.albedo).bind fun alb_sq =>
    (sqeeze (pmap (fun v => 1 / v - 1) rec_results.inv_shading)).bind fun sh_sq =>
      Except.ok
        { rgb_hdr := hdr_r
          alb_hdr := alb_hdr
          sh_hdr := shading_hdr
          mask := bl_mask
          alb_raw := alb_raw
          sh_raw := sh_raw
          alb_ldr := resize alb_sq w_in h_in
          sh_ldr := resize sh_sq w_in h_in }

/-- The intended `intrinsic_hdr`: identical to `intrinsic_hdr` except that
the misspelled `.sqeeze()` of lines 239-240 is the correctly spelled
`.squeeze()`, so the results dictionary is actually produced.  Used to
state the behaviour the spec describes (code-bug analysis). -/
def intrinsic_hdr_fixed (labL : ℚ × ℚ × ℚ → ℚ) (decompose : Img → Option ℕ → Img × Img)
    (nets : Nets) (quant : Img → ℚ → ℚ) (ldr : Img)
    (max_res : ℕ) (decomp_res : Option ℕ) (proc_scale : ℚ) : Results :=
  let ldr_c := clip01 ldr
  let h_in := ldr_c.h
  let w_in := ldr_c.w
  let new_h := (procSize h_in w_in max_res).1
  let new_w := (procSize h_in w_in max_res).2
  let ldr_lin := resize ldr_c new_w new_h
  let ldr_t := smul proc_scale ldr_lin
  let dec := decompose (clamp01 ldr_t) decomp_res
  let pred_inv_shading_raw := dec.1
  let pred_albedo_raw := dec.2
  let rec_results := hdr_reconstruction nets quant pred_albedo_raw pred_inv_shading_raw ldr_t proc_scale
  let hdr_r0 := resize rec_results.rgb_hdr w_in h_in
  let bl_mask := resize rec_results.mask w_in h_in
  let hdr_r := blend_imgs labL ldr_c hdr_r0 bl_mask
  let alb_hdr := resize rec_results.albedo_hdr w_in h_in
  let shading_hdr := resize (pmap (fun v => 1 / v - 1) rec_results.inv_sh_hdr) w_in h_in
  let alb_raw := resize pred_albedo_raw w_in h_in
  let sh_raw := resize (pmap (fun v => 1 / v - 1) pred_inv_shading_raw) w_in h_in
  let alb_sq := squeeze rec_results.albedo
  let sh_sq := squeeze (pmap (fun v => 1 / v - 1) rec_results.inv_shading)
  { rgb_hdr := hdr_r
    alb_hdr := alb_hdr
    sh_hdr := shading_hdr
    mask := bl_mask
    alb_raw := alb_raw
    sh_raw := sh_raw
    alb_ldr := resize alb_sq w_in h_in
    sh_ldr := resize sh_sq w_in h_in }

/-! ## The batch driver (inference.py lines 259-389) -/

/-- Embedding of the float -> `np.uint16` cast of line 375: truncation,
with 16-bit wrap-around for out-of-range values. -/
def npUint16 (q : ℚ) : ℕ := (⌊q⌋).toNat % 65536

/-- Embedding of `np.uint16(mask)*65536` (line 375): every mask value is
cast to an unsigned 16-bit integer; the Python scalar 65536 does not fit in
`uint16`, so under NumPy value-based promotion the product is computed in a
widened 32-bit dtype — it does not wrap modulo `2^16` (NumPy >= 2 raises
`OverflowError` for the out-of-range scalar instead of promoting). -/
def maskStore (m : Img) : Img :=
  ⟨m.h, m.w, m.c, fun i j ch => ((npUint16 (m.pix i j ch) * 65536) % 2 ^ 32 : ℕ)⟩

/-- One iteration of the inference loop (lines 331-387) for the file `f`:
read the image, run the pipeline, then emit the output writes — the refined
HDR image always, and the seven intrinsic-component images when
`--store_intrinsics` is set.  `cv2.imwrite` is modelled as the emission of a
`(path, data)` record; any failure aborts the iteration with no further
writes. -/
def processImage (readImg : String → Except Err Img)
    (proc : Img → Except Err Results) (storeIntrinsics : Bool) (ext : String)
    (f : String) : Except Err (List (String × Img)) :=
  (readImg f).bind fun ldr =>
    (proc ldr).bind fun results =>
      let refPath := f.replace ".exr" ext
      let intrinsics :=
        if storeIntrinsics then
          [(f.replace ".exr" "_alb_hdr.exr", results.alb_hdr),
           (f.replace ".exr" "_sh_hdr.exr", results.sh_hdr),
           (f.replace ".exr" "_mask.png", maskStore results.mask),
           (f.replace ".exr" "_alb_ldr.exr", results.alb_ldr),
           (f.replace ".exr" "_sh_ldr.exr", results.sh_ldr),
           (f.replace ".exr" "_alb_raw.exr", results.alb_raw),
           (f.replace ".exr" "_sh_raw.exr", results.sh_raw)]
        else []
      Except.ok ((refPath, results.rgb_hdr) :: intrinsics)

/-- The inference loop `for img_name in tqdm(imgs)` (line 331): process the
files strictly in order, one file completely before the next; the first
uncaught error aborts the whole run (there is no `try`/`except` anywhere in
`inference.py`).  Returns the writes performed and the error, if any. -/
def runBatch (step : String → Except Err (List (String × Img))) :
    List String → List (String × Img) × Option Err
  | [] => ([], none)
  | f :: fs =>
    match step f with
    | .error e => ([], some e)
    | .ok ws => (ws ++ (runBatch step fs).1, (runBatch step fs).2)

/-- Python list slicing `l[s:e]` as used on lines 307/309
(`sorted(glob.glob(...))[args.start_id:args.end_id]`, `e = None` when
`--end_id` is absent). -/
def pySlice (l : List String) (s : ℕ) (e : Option ℕ) : List String :=
  match e with
  | none => l.drop s
  | some e => (l.take e).drop s

/-- The processed file list of lines 305-309: the matched files,
lexicographically sorted, then sliced to `[start_id:end_id]`. -/
def sortedImgs (files : List String) (s : ℕ) (e : Option ℕ) : List String :=
  pySlice (List.insertionSort (· ≤ ·) files) s e

/-! ## Concrete instances for witnesses -/

/-- A concrete 1x1 three-channel image of constant value 1/2. -/
def demoImg : Img := ⟨1, 1, 3, fun _ _ _ => 1/2⟩

/-- A concrete 8192x4096 image (exceeds the default `max_res = 4096`). -/
def bigImg : Img := ⟨8192, 4096, 3, fun _ _ _ => 1/2⟩

/-- A concrete 1x1 single-channel mask of constant value 1. -/
def maskOne : Img := ⟨1, 1, 1, fun _ _ _ => 1⟩

/-- A concrete 1x1 single-channel mask of constant value 0. -/
def maskZero : Img := ⟨1, 1, 1, fun _ _ _ => 0⟩

/-- A concrete stand-in for the Lab L-channel conversion: the first (red)
channel. -/
def lab0 : ℚ × ℚ × ℚ → ℚ := fun p => p.1

/-- A concrete stand-in for `decompose_torch`: both components equal the
input. -/
def dec0 : Img → Option ℕ → Img × Img := fun x _ => (x, x)

/-- Concrete stand-in reconstruction networks: identity forwards. -/
def nets0 : Nets := ⟨fun x => x, fun x => x, fun x => x⟩

/-- A concrete stand-in for `get_quantile`: constantly 1. -/
def quant0 : Img → ℚ → ℚ := fun _ _ => 1

/-- A concrete per-image writes function for driver witnesses. -/
def w0 : String → List (String × Img) := fun f => [(f, demoImg)]

/-- A concrete per-image step that always succeeds. -/
def stepOk : String → Except Err (List (String × Img)) := fun f => .ok (w0 f)

/-- A concrete per-image step that fails on the file `"b"` (say, a missing
file) and succeeds elsewhere. -/
def step0 : String → Except Err (List (String × Img)) :=
  fun f => if f = "b" then .error .ioError else .ok (w0 f)

/-! ### Lemmas about masked sums -/

theorem maskedSum_add (mask : Img) (h w : ℕ) (f g : ℕ → ℕ → ℚ) :
    maskedSum mask h w (fun i j => f i j + g i j) =
      maskedSum mask h w f + maskedSum mask h w g := by
  unfold maskedSum
  rw [← Finset.sum_add_distrib]
  refine Finset.sum_congr rfl fun i _ => ?_
  rw [← Finset.sum_add_distrib]
  refine Finset.sum_congr rfl fun j _ => ?_
  split <;> simp

theorem maskedSum_mul_left (mask : Img) (h w : ℕ) (c : ℚ) (f : ℕ → ℕ → ℚ) :
    maskedSum mask h w (fun i j => c * f i j) = c * maskedSum mask h w f := by
  unfold maskedSum
  rw [Finset.mul_sum]
  refine Finset.sum_congr rfl fun i _ => ?_
  rw [Finset.mul_sum]
  refine Finset.sum_congr rfl fun j _ => ?_
  split <;> simp

theorem maskedSum_congr (mask : Img) (h w : ℕ) (f g : ℕ → ℕ → ℚ)
    (hfg : ∀ i j, f i j = g i j) :
    maskedSum mask h w f = maskedSum mask h w g := by
  unfold maskedSum
  exact Finset.sum_congr rfl fun i _ => Finset.sum_congr rfl fun j _ => by rw [hfg]

theorem maskedSum_nonneg (mask : Img) (h w : ℕ) (f : ℕ → ℕ → ℚ)
    (hf : ∀ i j, 0 ≤ f i j) :
    0 ≤ maskedSum mask h w f := by
  refine Finset.sum_nonneg fun i _ => Finset.sum_nonneg fun j _ => ?_
  split
  · exact hf i j
  · exact le_refl 0

/-- Expansion of the masked residual sum of squares as a quadratic in the
fitted coefficient `t`. -/
theorem maskedSum_residual_expand (mask : Img) (h w : ℕ) (a b : ℕ → ℕ → ℚ) (t : ℚ) :
    maskedSum mask h w (fun i j => (a i j * t - b i j) ^ 2) =
      t ^ 2 * maskedSum mask h w (fun i j => a i j * a i j)
        + (-2 * t) * maskedSum mask h w (fun i j => a i j * b i j)
        + maskedSum mask h w (fun i j => b i j * b i j) := by
  rw [← maskedSum_mul_left mask h w (t ^ 2), ← maskedSum_mul_left mask h w (-2 * t),
    ← maskedSum_add, ← maskedSum_add]
  exact maskedSum_congr _ _ _ _ _ fun i j => by ring

/-- If the masked sum of squares of `a` vanishes then so does any masked sum
of products `a * b` (over the rationals a sum of squares is zero only when
every summand is). -/
theorem maskedSum_ata_zero (mask : Img) (h w : ℕ) (a b : ℕ → ℕ → ℚ)
    (h0 : maskedSum mask h w (fun i j => a i j * a i j) = 0) :
    maskedSum mask h w (fun i j => a i j * b i j) = 0 := by
  unfold maskedSum at h0 ⊢
  have hterm : ∀ i j : ℕ, 0 ≤ if 0 ≤ mask.pix i j 0 then a i j * a i j else 0 := by
    intro i j
    split
    · exact mul_self_nonneg _
    · exact le_refl 0
  have houter := (Finset.sum_eq_zero_iff_of_nonneg (fun i _ =>
    Finset.sum_nonneg fun j _ => hterm i j)).mp h0
  refine Finset.sum_eq_zero fun i hi => Finset.sum_eq_zero fun j hj => ?_
  have hinner := (Finset.sum_eq_zero_iff_of_nonneg (fun j _ => hterm i j)).mp
    (houter i hi) j hj
  by_cases hm : 0 ≤ mask.pix i j 0
  · simp only [if_pos hm] at hinner ⊢
    rw [mul_self_eq_zero.mp hinner, zero_mul]
  · simp [if_neg hm]

/-- Claim C3: `blend_imgs(ldr, hdr, mask)` computes a scalar `scale` as the
least-squares fit of the LDR Lab L-channel to the HDR Lab L-channel over the
pixels with `mask >= 0`, and returns `mask*hdr + (1-mask)*(ldr*scale)` per
pixel and channel; where the mask is `1` the output is the HDR input, where
it is `0` the output is the scaled LDR input. -/
theorem blend_imgs_spec (labL : ℚ × ℚ × ℚ → ℚ) (ldr hdr mask : Img) :
    (∀ t : ℚ,
      maskedSum mask ldr.h ldr.w
        (fun i j => (labChan labL ldr i j * blendScale labL ldr hdr mask
          - labChan labL hdr i j) ^ 2)
      ≤ maskedSum mask ldr.h ldr.w
        (fun i j => (labChan labL ldr i j * t - labChan labL hdr i j) ^ 2))
    ∧ (∀ i j ch, (blend_imgs labL ldr hdr mask).pix i j ch =
        mask.pix i j 0 * hdr.pix i j ch
          + (1 - mask.pix i j 0) * (ldr.pix i j ch * blendScale labL ldr hdr mask))
    ∧ (∀ i j ch, mask.pix i j 0 = 1 →
        (blend_imgs labL ldr hdr mask).pix i j ch = hdr.pix i j ch)
    ∧ (∀ i j ch, mask.pix i j 0 = 0 →
        (blend_imgs labL ldr hdr mask).pix i j ch =
          ldr.pix i j ch * blendScale labL ldr hdr mask) := by
  set a := labChan labL ldr with ha
  set b := labChan labL hdr with hb
  refine ⟨?_, fun i j ch => rfl, ?_, ?_⟩
  · intro t
    set A := maskedSum mask ldr.h ldr.w (fun i j => a i j * a i j) with hA
    set B := maskedSum mask ldr.h ldr.w (fun i j => a i j * b i j) with hB
    set C := maskedSum mask ldr.h ldr.w (fun i j => b i j * b i j) with hC
    rw [maskedSum_residual_expand mask ldr.h ldr.w a b, ← hA, ← hB, ← hC,
      maskedSum_residual_expand mask ldr.h ldr.w a b, ← hA, ← hB, ← hC]
    have hscale : blendScale labL ldr hdr mask = if A = 0 then 0 else B / A := rfl
    by_cases h0 : A = 0
    · have hB0 : B = 0 := maskedSum_ata_zero mask ldr.h ldr.w a b (hA ▸ h0)
      rw [hscale, if_pos h0, h0, hB0]
      ring_nf
      exact le_refl _
    · have hApos : 0 < A :=
        lt_of_le_of_ne (maskedSum_nonneg mask ldr.h ldr.w _ fun i j => mul_self_nonneg _)
          (Ne.symm h0)
      rw [hscale, if_neg h0]
      have key : (B / A) ^ 2 * A + -2 * (B / A) * B + C = C - B ^ 2 / A := by
        field_simp
        ring
      have key2 : t ^ 2 * A + -2 * t * B + C - (C - B ^ 2 / A) = (t * A - B) ^ 2 / A := by
        field_simp
        ring
      have hnn : 0 ≤ (t * A - B) ^ 2 / A := div_nonneg (sq_nonneg _) (le_of_lt hApos)
      rw [key]
      linarith [key2 ▸ hnn]
  · intro i j ch hm
    show mask.pix i j 0 * hdr.pix i j ch
        + (1 - mask.pix i j 0) * (ldr.pix i j ch * blendScale labL ldr hdr mask)
      = hdr.pix i j ch
    rw [hm]
    ring
  · intro i j ch hm
    show mask.pix i j 0 * hdr.pix i j ch
        + (1 - mask.pix i j 0) * (ldr.pix i j ch * blendScale labL ldr hdr mask)
      = ldr.pix i j ch * blendScale labL ldr hdr mask
    rw [hm]
    ring

/-! ### Helper lemmas -/

theorem clip01_idem (x : Img) : clip01 (clip01 x) = clip01 x := by
  cases x with
  | mk h w c pix =>
    simp only [clip01, pmap]
    refine congrArg _ ?_
    funext i j ch
    have h1 : 0 ≤ min (max (pix i j ch) 0) 1 :=
      le_min (le_max_right _ _) zero_le_one
    rw [max_eq_left h1, min_eq_left (min_le_right _ _)]

theorem cat2_pix_left (a b : Img) (i j ch : ℕ) (h : ch < a.c) :
    (cat2 a b).pix i j ch = a.pix i j ch := by
  simp only [cat2]
  rw [if_pos h]

theorem reconLdrPart_bounds (l : Img) (p : ℚ) (i j ch : ℕ) :
    0 ≤ (reconLdrPart l p).pix i j ch ∧ (reconLdrPart l p).pix i j ch ≤ 1 :=
  ⟨le_min (le_max_right _ _) zero_le_one, min_le_right _ _⟩

theorem runBatch_all_ok (step : String → Except Err (List (String × Img)))
    (w : String → List (String × Img)) (l : List String)
    (h : ∀ g ∈ l, step g = .ok (w g)) :
    runBatch step l = (l.flatMap w, none) := by
  induction l with
  | nil => rfl
  | cons f fs ih =>
    have hf := h f (List.mem_cons_self f fs)
    simp only [runBatch, hf, ih fun g hg => h g (List.mem_cons_of_mem f hg),
      List.flatMap_cons]

theorem runBatch_first_error (step : String → Except Err (List (String × Img)))
    (w : String → List (String × Img)) (pre : List String) (f : String)
    (post : List String) (e : Err)
    (hpre : ∀ g ∈ pre, step g = .ok (w g)) (hf : step f = .error e) :
    runBatch step (pre ++ f :: post) = (pre.flatMap w, some e) := by
  induction pre with
  | nil => simp [runBatch, hf]
  | cons g gs ih =>
    have hg := hpre g (List.mem_cons_self g gs)
    have hrest := ih fun x hx => hpre x (List.mem_cons_of_mem g hx)
    simp only [List.cons_append, runBatch, hg, List.append_eq, hrest, List.flatMap_cons]

/-! ### Claim theorems -/

/-- Claim C2: on every input on which the (black-box) decomposition,
reconstruction and blending calls succeed — in this model they are total —
`intrinsic_hdr` raises `AttributeError` while resizing the intrinsic
components (the tensor method on lines 239-240 is spelled `sqeeze` instead
of `squeeze`), so it never returns its results dictionary normally. -/
theorem intrinsic_hdr_raises_attributeError (labL : ℚ × ℚ × ℚ → ℚ)
    (decompose : Img → Option ℕ → Img × Img) (nets : Nets) (quant : Img → ℚ → ℚ)
    (ldr : Img) (max_res : ℕ) (decomp_res : Option ℕ) (proc_scale : ℚ) :
    intrinsic_hdr labL decompose nets quant ldr max_res decomp_res proc_scale =
      .error .attributeError := rfl

/-- Claim C1 (code bug): on the code as written, `intrinsic_hdr` raises
`AttributeError` (misspelled `.sqeeze()`, line 239) before returning, so the
claimed equation about the returned dictionary never materialises; with that
one typo corrected, the pipeline runs in the claimed order — clip, resize
for processing, intrinsic decomposition, per-component HDR reconstruction,
resize back, blend — and the returned `rgb_hdr` equals `blend_imgs` applied
to the clipped input, the resized reconstruction and the resized mask. -/
theorem intrinsic_hdr_pipeline (labL : ℚ × ℚ × ℚ → ℚ)
    (decompose : Img → Option ℕ → Img × Img) (nets : Nets) (quant : Img → ℚ → ℚ)
    (ldr : Img) (max_res : ℕ) (decomp_res : Option ℕ) (proc_scale : ℚ) :
    intrinsic_hdr lab0 dec0 nets0 quant0 demoImg 4096 none 1 = .error .attributeError
    ∧ (intrinsic_hdr_fixed labL decompose nets quant ldr max_res decomp_res proc_scale).rgb_hdr =
        (let ldr_c := clip01 ldr
         let new_h := (procSize ldr_c.h ldr_c.w max_res).1
         let new_w := (procSize ldr_c.h ldr_c.w max_res).2
         let ldr_t := smul proc_scale (resize ldr_c new_w new_h)
         let dec := decompose (clamp01 ldr_t) decomp_res
         let rec_results := hdr_reconstruction nets quant dec.2 dec.1 ldr_t proc_scale
         blend_imgs labL ldr_c (resize rec_results.rgb_hdr ldr_c.w ldr_c.h)
           (resize rec_results.mask ldr_c.w ldr_c.h)) :=
  ⟨rfl, rfl⟩

/-- Claim C4: `hdr_reconstruction` recombines the hallucinated components by
`shading_hdr = 1/inv_sh_hdr - 1` and `hdr_t = albedo_hdr * shading_hdr`
(broadcast over the channel dimension), feeds `inv_hdr_t = 1/(hdr_t + 1)` to
the refinement network (concatenated after the clamped LDR channels and
before `albedo_hdr` and `inv_sh_hdr`), and returns `1/ref_hdr - 1` as the
reconstructed HDR image. -/
theorem hdr_reconstruction_recombination (nets : Nets) (quant : Img → ℚ → ℚ)
    (albedo_raw inv_shading_raw ldr_t : Img) (proc_scale : ℚ) :
    (hdr_reconstruction nets quant albedo_raw inv_shading_raw ldr_t proc_scale).rgb_hdr =
      (let r := hdr_reconstruction nets quant albedo_raw inv_shading_raw ldr_t proc_scale
       let shading_hdr := pmap (fun v => 1 / v - 1) r.inv_sh_hdr
       let hdr_t := bmul r.albedo_hdr shading_hdr
       let inv_hdr_t := pmap (fun v => 1 / (v + 1)) hdr_t
       pmap (fun v => 1 / v - 1)
         (nets.ref_fwd
           (cat2 (cat2 (cat2 (reconLdrPart ldr_t proc_scale) inv_hdr_t) r.albedo_hdr)
             r.inv_sh_hdr))) := rfl

/-- Claim C7: the two component hallucinations are independent of each
other's component: for fixed `ldr_t`, `proc_scale` and `albedo_raw`, the
albedo hallucination output `albedo_hdr` is identical across any two values
of `inv_shading_raw`. -/
theorem albedo_hallucination_independent (nets : Nets) (quant : Img → ℚ → ℚ)
    (albedo_raw ldr_t : Img) (proc_scale : ℚ) (invSh₁ invSh₂ : Img) :
    (hdr_reconstruction nets quant albedo_raw invSh₁ ldr_t proc_scale).albedo_hdr =
      (hdr_reconstruction nets quant albedo_raw invSh₂ ldr_t proc_scale).albedo_hdr := rfl

/-- Claim C5 (code bug): the resizing policy of `intrinsic_hdr`: when
`max(h_in, w_in)` exceeds `max_res` both dimensions are scaled by
`max_res / max(h_in, w_in)` (otherwise kept), the processing dimensions are
rounded to a multiple of 32 before decomposition, and the `rgb_hdr` entry is
resized back to the original input height and width — but on the code as
written it is never returned, because `intrinsic_hdr` raises
`AttributeError` (line 239) first; the last conjunct evaluates the faithful
model at a concrete oversized input, the dimension conjunct holds of the
typo-corrected `intrinsic_hdr_fixed`. -/
theorem intrinsic_hdr_resize_policy :
    (∀ hIn wIn maxRes : ℕ, maxRes < max hIn wIn →
      procSize hIn wIn maxRes =
        (round_32 ((hIn : ℚ) * ((maxRes : ℚ) / max (hIn : ℚ) (wIn : ℚ))),
         round_32 ((wIn : ℚ) * ((maxRes : ℚ) / max (hIn : ℚ) (wIn : ℚ)))))
    ∧ (∀ hIn wIn maxRes : ℕ, ¬ maxRes < max hIn wIn →
        procSize hIn wIn maxRes = (round_32 (hIn : ℚ), round_32 (wIn : ℚ)))
    ∧ (∀ q : ℚ, 32 ∣ round_32 q)
    ∧ (∀ (labL : ℚ × ℚ × ℚ → ℚ) (decompose : Img → Option ℕ → Img × Img)
        (nets : Nets) (quant : Img → ℚ → ℚ) (ldr : Img) (mr : ℕ)
        (dr : Option ℕ) (p : ℚ),
        ((intrinsic_hdr_fixed labL decompose nets quant ldr mr dr p).rgb_hdr).h = ldr.h
        ∧ ((intrinsic_hdr_fixed labL decompose nets quant ldr mr dr p).rgb_hdr).w = ldr.w)
    ∧ intrinsic_hdr lab0 dec0 nets0 quant0 bigImg 4096 none 1 = .error .attributeError := by
  refine ⟨?_, ?_, ?_, fun _ _ _ _ _ _ _ _ => ⟨rfl, rfl⟩, rfl⟩
  · intro hIn wIn maxRes h
    simp only [procSize, if_pos h]
  · intro hIn wIn maxRes h
    simp only [procSize, if_neg h]
  · intro q
    exact ⟨(round (q / 32)).toNat, rfl⟩

/-- Claim C6: values flowing into the networks are normalized to `[0, 1]`:
`intrinsic_hdr` clips its input to `[0, 1]` before any other processing (so
pre-clipping the input changes nothing), the tensor passed to the
decomposition call is additionally clamped to `[0, 1]`, and so are the LDR
channels (channel index below `ldr_t.c`) concatenated into each of the
three reconstruction-network inputs. -/
theorem pipeline_normalization :
    (∀ (labL : ℚ × ℚ × ℚ → ℚ) (decompose : Img → Option ℕ → Img × Img)
        (nets : Nets) (quant : Img → ℚ → ℚ) (ldr : Img) (mr : ℕ)
        (dr : Option ℕ) (p : ℚ),
        intrinsic_hdr_fixed labL decompose nets quant (clip01 ldr) mr dr p =
          intrinsic_hdr_fixed labL decompose nets quant ldr mr dr p)
    ∧ (∀ (ldr : Img) (mr : ℕ) (p : ℚ),
        decompInput ldr mr p =
          clamp01 (smul p (resize (clip01 ldr)
            (procSize (clip01 ldr).h (clip01 ldr).w mr).2
            (procSize (clip01 ldr).h (clip01 ldr).w mr).1)))
    ∧ (∀ (ldr : Img) (mr : ℕ) (p : ℚ) (i j ch : ℕ),
        0 ≤ (decompInput ldr mr p).pix i j ch ∧ (decompInput ldr mr p).pix i j ch ≤ 1)
    ∧ (∀ (l : Img) (p : ℚ) (x : Img) (i j ch : ℕ), ch < l.c →
        0 ≤ (cat2 (reconLdrPart l p) x).pix i j ch
        ∧ (cat2 (reconLdrPart l p) x).pix i j ch ≤ 1)
    ∧ (∀ (l : Img) (p : ℚ) (x y : Img) (i j ch : ℕ), ch < l.c →
        0 ≤ (cat2 (cat2 (reconLdrPart l p) x) y).pix i j ch
        ∧ (cat2 (cat2 (reconLdrPart l p) x) y).pix i j ch ≤ 1)
    ∧ (∀ (l : Img) (p : ℚ) (x y z : Img) (i j ch : ℕ), ch < l.c →
        0 ≤ (cat2 (cat2 (cat2 (reconLdrPart l p) x) y) z).pix i j ch
        ∧ (cat2 (cat2 (cat2 (reconLdrPart l p) x) y) z).pix i j ch ≤ 1) := by
  refine ⟨?_, fun ldr mr p => rfl, ?_, ?_, ?_, ?_⟩
  · intro labL decompose nets quant ldr mr dr p
    simp only [intrinsic_hdr_fixed, clip01_idem]
  · intro ldr mr p i j ch
    exact ⟨le_min (le_max_right _ _) zero_le_one, min_le_right _ _⟩
  · intro l p x i j ch h
    rw [cat2_pix_left (reconLdrPart l p) x i j ch h]
    exact reconLdrPart_bounds l p i j ch
  · intro l p x y i j ch h
    have h1 : ch < (cat2 (reconLdrPart l p) x).c :=
      lt_of_lt_of_le h (Nat.le_add_right _ _)
    rw [cat2_pix_left (cat2 (reconLdrPart l p) x) y i j ch h1,
      cat2_pix_left (reconLdrPart l p) x i j ch h]
    exact reconLdrPart_bounds l p i j ch
  · intro l p x y z i j ch h
    have h1 : ch < (cat2 (reconLdrPart l p) x).c :=
      lt_of_lt_of_le h (Nat.le_add_right _ _)
    have h2 : ch < (cat2 (cat2 (reconLdrPart l p) x) y).c :=
      lt_of_lt_of_le h1 (Nat.le_add_right _ _)
    rw [cat2_pix_left (cat2 (cat2 (reconLdrPart l p) x) y) z i j ch h2,
      cat2_pix_left (cat2 (reconLdrPart l p) x) y i j ch h1,
      cat2_pix_left (reconLdrPart l p) x i j ch h]
    exact reconLdrPart_bounds l p i j ch

/-- Claim C8: no error is caught anywhere in the pipeline or the batch
loop: whatever per-image step and error, the first failure aborts the run
with exactly the writes of the earlier images (none for the failing image),
and inside an image both a failing read and a failing pipeline call
propagate out of `processImage` with no write emitted. -/
theorem errors_propagate_uncaught (step : String → Except Err (List (String × Img)))
    (w : String → List (String × Img)) (pre : List String) (f : String)
    (post : List String) (e : Err)
    (hpre : ∀ g ∈ pre, step g = .ok (w g)) (hf : step f = .error e) :
    runBatch step (pre ++ f :: post) = (pre.flatMap w, some e)
    ∧ (∀ (readImg : String → Except Err Img) (proc : Img → Except Err Results)
        (si : Bool) (ext : String) (ldr : Img),
        readImg f = .ok ldr → proc ldr = .error e →
        processImage readImg proc si ext f = .error e)
    ∧ (∀ (readImg : String → Except Err Img) (proc : Img → Except Err Results)
        (si : Bool) (ext : String),
        readImg f = .error e → processImage readImg proc si ext f = .error e) := by
  refine ⟨runBatch_first_error step w pre f post e hpre hf, ?_, ?_⟩
  · intro readImg proc si ext ldr hr hp
    simp [processImage, Except.bind, hr, hp]
  · intro readImg proc si ext hr
    simp [processImage, Except.bind, hr]

/-- Claim C9: the batch driver processes the lexicographically sorted,
`[start_id:end_id]`-sliced file list strictly sequentially: when every
image succeeds the writes are exactly the per-image writes concatenated in
list order (each image is a pure function of its own input, so no mutable
state flows between images), the processed list is sorted, and each image's
writes are emitted before the next image is touched. -/
theorem batch_sequential_sorted (files : List String) (s : ℕ) (e : Option ℕ)
    (step : String → Except Err (List (String × Img)))
    (w : String → List (String × Img))
    (hok : ∀ g ∈ sortedImgs files s e, step g = .ok (w g)) :
    runBatch step (sortedImgs files s e) = ((sortedImgs files s e).flatMap w, none)
    ∧ List.Sorted (· ≤ ·) (sortedImgs files s e)
    ∧ (∀ (f : String) (fs : List String) (ws : List (String × Img)),
        step f = .ok ws →
        runBatch step (f :: fs) = (ws ++ (runBatch step fs).1, (runBatch step fs).2)) := by
  refine ⟨runBatch_all_ok step w _ hok, ?_, ?_⟩
  · have hs : List.Sorted (· ≤ ·) (List.insertionSort (· ≤ ·) files) :=
      List.sorted_insertionSort (· ≤ ·) files
    have hsub : (sortedImgs files s e).Sublist (List.insertionSort (· ≤ ·) files) := by
      unfold sortedImgs pySlice
      cases e with
      | none => exact List.drop_sublist s _
      | some e => exact (List.drop_sublist s _).trans (List.take_sublist e _)
    exact List.Pairwise.sublist hsub hs
  · intro f fs ws hf
    simp [runBatch, hf]

/-- Claim C10, counterexample to the claim as stated: at a mask pixel of
value exactly 1 — inside the range `[0, 1]` the claim itself posits — the
value line 375 computes under NumPy promotion is 65536, not 0: the
multiplication by 65536 happens in a widened dtype and never wraps modulo
`2^16`. -/
theorem mask_store_counterexample :
    (maskStore maskOne).pix 0 0 0 = 65536 ∧ (maskStore maskOne).pix 0 0 0 ≠ 0 := by
  have h : (maskStore maskOne).pix 0 0 0 = 65536 := by
    show (((npUint16 (1 : ℚ) * 65536) % 2 ^ 32 : ℕ) : ℚ) = 65536
    norm_num [npUint16]
  exact ⟨h, by rw [h]; norm_num⟩

/-- Claim C10 as amended: the mask values are cast to `np.uint16`,
truncating values in `[0, 1]` to 0 or 1, and multiplied by 65536 in a
NumPy-promoted wider dtype that does not wrap modulo `2^16`; a stored pixel
value is therefore 0 exactly when its mask value is strictly below 1, and
is 65536 — not 0 — where the mask equals 1, so the stored image is not
identically zero for every input. -/
theorem mask_store_values (m : Img) (i j ch : ℕ) :
    (0 ≤ m.pix i j ch → m.pix i j ch < 1 → (maskStore m).pix i j ch = 0)
    ∧ (m.pix i j ch = 1 → (maskStore m).pix i j ch = 65536) := by
  constructor
  · intro h0 h1
    show (((npUint16 (m.pix i j ch) * 65536) % 2 ^ 32 : ℕ) : ℚ) = 0
    have hfl : ⌊m.pix i j ch⌋ = 0 := Int.floor_eq_zero_iff.mpr ⟨h0, h1⟩
    simp [npUint16, hfl]
  · intro h1
    show (((npUint16 (m.pix i j ch) * 65536) % 2 ^ 32 : ℕ) : ℚ) = 65536
    rw [h1]
    norm_num [npUint16]

/-! ### Witnesses -/

/-- Witness for `blend_imgs_spec` at concrete inputs: the mask-1 and mask-0
cases evaluated on 1x1 images. -/
theorem blend_imgs_spec_witness :
    maskOne.pix 0 0 0 = 1
    ∧ (blend_imgs lab0 demoImg demoImg maskOne).pix 0 0 0 = demoImg.pix 0 0 0
    ∧ maskZero.pix 0 0 0 = 0
    ∧ (blend_imgs lab0 demoImg demoImg maskZero).pix 0 0 0 =
        demoImg.pix 0 0 0 * blendScale lab0 demoImg demoImg maskZero :=
  ⟨rfl, (blend_imgs_spec lab0 demoImg demoImg maskOne).2.2.1 0 0 0 rfl, rfl,
    (blend_imgs_spec lab0 demoImg demoImg maskZero).2.2.2 0 0 0 rfl⟩

/-- Witness for `intrinsic_hdr_resize_policy` at concrete dimensions
exceeding the default `max_res`. -/
theorem intrinsic_hdr_resize_policy_witness :
    4096 < max 8192 4096
    ∧ procSize 8192 4096 4096 =
        (round_32 (((8192 : ℕ) : ℚ) * ((((4096 : ℕ)) : ℚ) / max ((8192 : ℕ) : ℚ) ((4096 : ℕ) : ℚ))),
         round_32 (((4096 : ℕ) : ℚ) * ((((4096 : ℕ)) : ℚ) / max ((8192 : ℕ) : ℚ) ((4096 : ℕ) : ℚ)))) :=
  ⟨by norm_num, intrinsic_hdr_resize_policy.1 8192 4096 4096 (by norm_num)⟩

/-- Witness for `pipeline_normalization` at a concrete network input. -/
theorem pipeline_normalization_witness :
    (0 : ℕ) < demoImg.c
    ∧ 0 ≤ (cat2 (reconLdrPart demoImg 1) maskOne).pix 0 0 0
    ∧ (cat2 (reconLdrPart demoImg 1) maskOne).pix 0 0 0 ≤ 1 :=
  ⟨by norm_num [demoImg],
    (pipeline_normalization.2.2.2.1 demoImg 1 maskOne 0 0 0 (by norm_num [demoImg])).1,
    (pipeline_normalization.2.2.2.1 demoImg 1 maskOne 0 0 0 (by norm_num [demoImg])).2⟩

/-- Witness for `errors_propagate_uncaught` on a concrete three-file batch
whose middle file fails. -/
theorem errors_propagate_uncaught_witness :
    step0 "b" = .error .ioError
    ∧ runBatch step0 (["a"] ++ "b" :: ["c"]) = (["a"].flatMap w0, some .ioError) :=
  ⟨rfl,
    (errors_propagate_uncaught step0 w0 ["a"] "b" ["c"] .ioError
      (by intro g hg; simp only [List.mem_singleton] at hg; subst hg; rfl) rfl).1⟩

/-- Witness for `batch_sequential_sorted` on a concrete unsorted two-file
list. -/
theorem batch_sequential_sorted_witness :
    runBatch stepOk (sortedImgs ["b", "a"] 0 none) =
      ((sortedImgs ["b", "a"] 0 none).flatMap w0, none)
    ∧ List.Sorted (· ≤ ·) (sortedImgs ["b", "a"] 0 none) :=
  ⟨(batch_sequential_sorted ["b", "a"] 0 none stepOk w0 (fun _ _ => rfl)).1,
    (batch_sequential_sorted ["b", "a"] 0 none stepOk w0 (fun _ _ => rfl)).2.1⟩

/-- Witness for `mask_store_values`: a sub-saturated mask pixel stores 0, a
saturated one stores 65536. -/
theorem mask_store_values_witness :
    (0 ≤ maskZero.pix 0 0 0 ∧ maskZero.pix 0 0 0 < 1
      ∧ (maskStore maskZero).pix 0 0 0 = 0)
    ∧ (maskOne.pix 0 0 0 = 1 ∧ (maskStore maskOne).pix 0 0 0 = 65536) :=
  ⟨⟨by norm_num [maskZero], by norm_num [maskZero],
      (mask_store_values maskZero 0 0 0).1 (by norm_num [maskZero]) (by norm_num [maskZero])⟩,
    ⟨rfl, (mask_store_values maskOne 0 0 0).2 rfl⟩⟩

end IntrinsicHDR
